import Mathlib

/-!
Shallow embedding of src/src/misc/mpisupport.c: the MPI pack/unpack codecs
for P7_HIT, P7_DOMAIN and P7_ALIDISPLAY records and the send/receive
transport for a P7_TOPHITS result collection.

Modelling conventions:

* The MPI packed wire is a list of typed items.  Each item occupies the byte
  width of its MPI datatype (MPI_INT 4, MPI_LONG 8, MPI_LONG_LONG_INT 8,
  MPI_FLOAT 4, MPI_DOUBLE 8, MPI_CHAR 1) and MPI_Pack_size returns exactly
  count times that width.
* float and double fields are only ever copied bit-for-bit by pack/unpack,
  never computed with, so they are carried as integer bit patterns.
* C strings and the alidisplay string pool are lists of byte values.
* The text-line members of P7_ALIDISPLAY are pointers into the single owned
  pool ad->mem in C; following that ownership invariant they are represented
  as byte offsets into the pool (Option Nat, none for NULL).
* MPI_Pack appends its item to the buffer and fails when the result would
  exceed the buffer length n, so a composite pack fails exactly when the
  total packed byte count exceeds n.  All pack call sites in this file start
  from position 0.
* MPI_Probe on a channel with no pending message blocks forever in C; it is
  modelled as a channel failure (eslESYS).
-/

/-! ### Status codes and MPI constants -/

-- Modelled from the spec: easel return codes (easel.h is not part of this
-- repository).  The error taxonomy of section 7 only needs them distinct.
def eslOK : Int := 0

def eslFAIL : Int := 1

def eslEMEM : Int := 5

def eslESYS : Int := 11

-- Modelled from the spec: MPI wildcard constants (mpi.h is not part of this
-- repository); valid ranks and tags are nonnegative, wildcards negative.
def MPI_ANY_TAG : Int := -1

def MPI_ANY_SOURCE : Int := -2

/-! ### The wire -/

/-- Byte width of MPI_INT. -/
def szINT : Nat := 4

/-- Byte width of MPI_LONG. -/
def szLONG : Nat := 8

/-- Byte width of MPI_LONG_LONG_INT. -/
def szLLONG : Nat := 8

/-- Byte width of MPI_FLOAT. -/
def szFLOAT : Nat := 4

/-- Byte width of MPI_DOUBLE. -/
def szDOUBLE : Nat := 8

/-- Byte width of MPI_CHAR. -/
def szCHAR : Nat := 1

/-- One datum written by a single MPI_Pack element: its MPI datatype together
with the transmitted value (bit pattern for float/double). -/
inductive WireItem where
  | wInt : Int → WireItem
  | wLong : Int → WireItem
  | wLL : Int → WireItem
  | wFloat : Int → WireItem
  | wDouble : Int → WireItem
  | wChar : Int → WireItem
deriving DecidableEq, Repr

/-- Byte count a wire item occupies in the packed buffer. -/
def itemSize : WireItem → Nat
  | .wInt _ => szINT
  | .wLong _ => szLONG
  | .wLL _ => szLLONG
  | .wFloat _ => szFLOAT
  | .wDouble _ => szDOUBLE
  | .wChar _ => szCHAR

/-- Byte count of a packed item sequence. -/
def wireSize (l : List WireItem) : Nat := (l.map itemSize).sum

/-- MPI_Unpack of one MPI_INT: reads the next item, which must be an int. -/
def readInt : List WireItem → Option (Int × List WireItem)
  | .wInt v :: r => some (v, r)
  | _ => none

/-- MPI_Unpack of one MPI_LONG. -/
def readLong : List WireItem → Option (Int × List WireItem)
  | .wLong v :: r => some (v, r)
  | _ => none

/-- MPI_Unpack of one MPI_LONG_LONG_INT. -/
def readLL : List WireItem → Option (Int × List WireItem)
  | .wLL v :: r => some (v, r)
  | _ => none

/-- MPI_Unpack of one MPI_FLOAT. -/
def readFloat : List WireItem → Option (Int × List WireItem)
  | .wFloat v :: r => some (v, r)
  | _ => none

/-- MPI_Unpack of one MPI_DOUBLE. -/
def readDouble : List WireItem → Option (Int × List WireItem)
  | .wDouble v :: r => some (v, r)
  | _ => none

/-- MPI_Unpack of a count of MPI_CHAR items. -/
def readChars : Nat → List WireItem → Option (List Int × List WireItem)
  | 0, r => some ([], r)
  | k + 1, .wChar c :: r =>
    match readChars k r with
    | some (cs, r2) => some (c :: cs, r2)
    | none => none
  | _ + 1, _ => none

/-! ### Data model (base/p7_tophits.h, base/p7_domain.h, p7_alidisplay) -/

/-- P7_ALIDISPLAY: the alignment display.  The seven optional text lines,
three model metadata strings and three sequence metadata strings are views
into the single owned pool `mem`, kept as byte offsets (none for NULL);
`memsize` is `mem.length`. -/
structure P7_ALIDISPLAY where
  rfline : Option Nat
  mmline : Option Nat
  csline : Option Nat
  model : Option Nat
  mline : Option Nat
  aseq : Option Nat
  ppline : Option Nat
  N : Int
  hmmname : Option Nat
  hmmacc : Option Nat
  hmmdesc : Option Nat
  hmmfrom : Int
  hmmto : Int
  M : Int
  sqname : Option Nat
  sqacc : Option Nat
  sqdesc : Option Nat
  sqfrom : Int
  sqto : Int
  L : Int
  mem : List Int
deriving DecidableEq, Repr

/-- P7_DOMAIN: one alignment-domain record with its owned display. -/
structure P7_DOMAIN where
  ienv : Int
  jenv : Int
  iali : Int
  jali : Int
  envsc : Int
  domcorrection : Int
  dombias : Int
  oasc : Int
  bitscore : Int
  lnP : Int
  is_reported : Int
  is_included : Int
  ad : P7_ALIDISPLAY
deriving DecidableEq, Repr

/-- P7_HIT: the fields that travel in a hit message.  The domain array
`hit->dcl` is not packed with the hit (domains travel as separate messages),
so it is carried alongside the hit in the transport model below. -/
structure P7_HIT where
  sortkey : Int
  score : Int
  pre_score : Int
  sum_score : Int
  lnP : Int
  pre_lnP : Int
  sum_lnP : Int
  nexpected : Int
  nregions : Int
  nclustered : Int
  noverlaps : Int
  nenvelopes : Int
  ndom : Int
  flags : Int
  nreported : Int
  nincluded : Int
  best_domain : Int
  name : Option (List Int)
  acc : Option (List Int)
  desc : Option (List Int)
deriving DecidableEq, Repr

/-- P7_TOPHITS: hits in insertion order, each paired with its domain array
(`len(domains) == ndom` is the P7_HIT invariant), plus the two counters. -/
structure P7_TOPHITS where
  unsrt : List (P7_HIT × List P7_DOMAIN)
  nreported : Int
  nincluded : Int
deriving DecidableEq, Repr

/-- Offset written on the wire for an optional pool view:
`(ad->line == NULL) ? -1 : ad->line - ad->mem`. -/
def optOffset : Option Nat → Int
  | none => -1
  | some k => (k : Int)

/-- Rehydration of a wire offset on decode:
`ad->line = (off == -1) ? NULL : ad->mem + off`. -/
def decodeOff (v : Int) : Option Nat :=
  if v = -1 then none else some v.toNat

/-- The thirteen line/metadata references of a display, in wire order. -/
def adRefs (ad : P7_ALIDISPLAY) : List (Option Nat) :=
  [ad.rfline, ad.mmline, ad.csline, ad.model, ad.mline, ad.aseq, ad.ppline,
   ad.hmmname, ad.hmmacc, ad.hmmdesc, ad.sqname, ad.sqacc, ad.sqdesc]

/-- A reference is either absent or an offset inside a pool of `len` bytes. -/
def offInRange (len : Nat) : Option Nat → Prop
  | none => True
  | some k => k < len

instance (len : Nat) : (r : Option Nat) → Decidable (offInRange len r)
  | none => isTrue trivial
  | some k => Nat.decLt k len

/-- Well-formed display: every present reference points inside the pool
(the section 3 invariant of the data model). -/
def adWF (ad : P7_ALIDISPLAY) : Prop :=
  ∀ r ∈ adRefs ad, offInRange ad.mem.length r

instance (ad : P7_ALIDISPLAY) : Decidable (adWF ad) :=
  List.decidableBAll _ _

/-! ### Optional strings (presence-coded) -/

-- Modelled from the spec: esl_mpi_PackOpt, esl_mpi_PackOptSize and
-- esl_mpi_UnpackOpt (easel esl_mpi.c is not part of this repository).
-- Section 6 wire format: an optional string is sent as
-- (presence:int32, [length:int32, bytes:char[length]]).

/-- Modelled from the spec: items written for a presence-coded optional
string; a presence flag int, then the length and the bytes when present. -/
def esl_mpi_PackOpt_items : Option (List Int) → List WireItem
  | none => [.wInt 0]
  | some s => .wInt 1 :: .wInt (s.length : Int) :: s.map .wChar

/-- Modelled from the spec: worst-case packed size of an optional string -
presence flag plus length and bytes when present, presence flag alone when
absent. -/
def esl_mpi_PackOptSize : Option (List Int) → Nat
  | none => szINT
  | some s => szINT + szINT + s.length * szCHAR

/-- Modelled from the spec: decode of a presence-coded optional string;
tolerates either branch without assuming presence. -/
def esl_mpi_UnpackOpt (b : List WireItem) : Option (Option (List Int) × List WireItem) :=
  match readInt b with
  | none => none
  | some (p, r) =>
    if p = 0 then some (none, r)
    else
      match readInt r with
      | none => none
      | some (len, r2) =>
        if len < 0 then none
        else
          match readChars len.toNat r2 with
          | none => none
          | some (cs, r3) => some (some cs, r3)

/-! ### Hit codec (p7_hit_MPIPackSize / p7_hit_MPIPack / p7_hit_MPIUnpack) -/

/-- Item sequence emitted by p7_hit_MPIPack (mpisupport.c:364-396), in the
exact source order. -/
def p7_hit_MPIPack_items (hit : P7_HIT) : List WireItem :=
  [ .wDouble hit.sortkey,
    .wFloat hit.score, .wFloat hit.pre_score, .wFloat hit.sum_score,
    .wDouble hit.lnP, .wDouble hit.pre_lnP, .wDouble hit.sum_lnP,
    .wFloat hit.nexpected,
    .wInt hit.nregions, .wInt hit.nclustered, .wInt hit.noverlaps,
    .wInt hit.nenvelopes, .wInt hit.ndom, .wInt hit.flags,
    .wInt hit.nreported, .wInt hit.nincluded, .wInt hit.best_domain ]
  ++ esl_mpi_PackOpt_items hit.name
  ++ esl_mpi_PackOpt_items hit.acc
  ++ esl_mpi_PackOpt_items hit.desc

/-- p7_hit_MPIPackSize (mpisupport.c:312-338): sums MPI_Pack_size of
1 double, 3 floats, 3 doubles, 1 float, 5 ints, 4 ints and the three
optional strings. -/
def p7_hit_MPIPackSize (hit : P7_HIT) : Nat :=
  1 * szDOUBLE + 3 * szFLOAT + 3 * szDOUBLE + 1 * szFLOAT + 5 * szINT + 4 * szINT
  + esl_mpi_PackOptSize hit.name + esl_mpi_PackOptSize hit.acc
  + esl_mpi_PackOptSize hit.desc

/-- p7_hit_MPIPack into a buffer of length n from position 0: succeeds with
the packed items and the final position iff they fit. -/
def p7_hit_MPIPack (hit : P7_HIT) (n : Nat) : Option (List WireItem × Nat) :=
  let items := p7_hit_MPIPack_items hit
  if wireSize items ≤ n then some (items, wireSize items) else none

/-- p7_hit_MPIUnpack (mpisupport.c:414-445): sequential MPI_Unpack of every
hit field in pack order, then the three optional strings. -/
def p7_hit_MPIUnpack (b : List WireItem) : Option (P7_HIT × List WireItem) :=
  match readDouble b with
  | none => none
  | some (sortkey, b) =>
  match readFloat b with
  | none => none
  | some (score, b) =>
  match readFloat b with
  | none => none
  | some (pre_score, b) =>
  match readFloat b with
  | none => none
  | some (sum_score, b) =>
  match readDouble b with
  | none => none
  | some (lnP, b) =>
  match readDouble b with
  | none => none
  | some (pre_lnP, b) =>
  match readDouble b with
  | none => none
  | some (sum_lnP, b) =>
  match readFloat b with
  | none => none
  | some (nexpected, b) =>
  match readInt b with
  | none => none
  | some (nregions, b) =>
  match readInt b with
  | none => none
  | some (nclustered, b) =>
  match readInt b with
  | none => none
  | some (noverlaps, b) =>
  match readInt b with
  | none => none
  | some (nenvelopes, b) =>
  match readInt b with
  | none => none
  | some (ndom, b) =>
  match readInt b with
  | none => none
  | some (flags, b) =>
  match readInt b with
  | none => none
  | some (nreported, b) =>
  match readInt b with
  | none => none
  | some (nincluded, b) =>
  match readInt b with
  | none => none
  | some (best_domain, b) =>
  match esl_mpi_UnpackOpt b with
  | none => none
  | some (name, b) =>
  match esl_mpi_UnpackOpt b with
  | none => none
  | some (acc, b) =>
  match esl_mpi_UnpackOpt b with
  | none => none
  | some (desc, b) =>
    some ({ sortkey := sortkey, score := score, pre_score := pre_score,
            sum_score := sum_score, lnP := lnP, pre_lnP := pre_lnP,
            sum_lnP := sum_lnP, nexpected := nexpected, nregions := nregions,
            nclustered := nclustered, noverlaps := noverlaps,
            nenvelopes := nenvelopes, ndom := ndom, flags := flags,
            nreported := nreported, nincluded := nincluded,
            best_domain := best_domain, name := name, acc := acc,
            desc := desc }, b)

/-! ### Domain codec (p7_dcl_MPIPackSize / p7_dcl_MPIPack / p7_dcl_MPIUnpack) -/

/-- Item sequence emitted by p7_dcl_MPIPack (mpisupport.c:504-566), in the
exact source order: 12 domain fields, then the display with its 13 offsets,
coordinates and the raw pool bytes. -/
def p7_dcl_MPIPack_items (dcl : P7_DOMAIN) : List WireItem :=
  [ .wInt dcl.ienv, .wInt dcl.jenv, .wInt dcl.iali, .wInt dcl.jali,
    .wFloat dcl.envsc, .wFloat dcl.domcorrection, .wFloat dcl.dombias,
    .wFloat dcl.oasc, .wFloat dcl.bitscore,
    .wDouble dcl.lnP,
    .wInt dcl.is_reported, .wInt dcl.is_included,
    .wInt (optOffset dcl.ad.rfline), .wInt (optOffset dcl.ad.mmline),
    .wInt (optOffset dcl.ad.csline), .wInt (optOffset dcl.ad.model),
    .wInt (optOffset dcl.ad.mline), .wInt (optOffset dcl.ad.aseq),
    .wInt (optOffset dcl.ad.ppline),
    .wInt dcl.ad.N,
    .wInt (optOffset dcl.ad.hmmname), .wInt (optOffset dcl.ad.hmmacc),
    .wInt (optOffset dcl.ad.hmmdesc),
    .wInt dcl.ad.hmmfrom, .wInt dcl.ad.hmmto, .wInt dcl.ad.M,
    .wInt (optOffset dcl.ad.sqname), .wInt (optOffset dcl.ad.sqacc),
    .wInt (optOffset dcl.ad.sqdesc),
    .wLong dcl.ad.sqfrom, .wLong dcl.ad.sqto, .wLong dcl.ad.L,
    .wInt (dcl.ad.mem.length : Int) ]
  ++ dcl.ad.mem.map .wChar

/-- p7_dcl_MPIPackSize (mpisupport.c:472-500): sums MPI_Pack_size of
4 ints, 5 floats, 1 double, 2 ints for the domain and 16 ints, 3 longs,
1 int and memsize chars for the display. -/
def p7_dcl_MPIPackSize (dcl : P7_DOMAIN) : Nat :=
  4 * szINT + 5 * szFLOAT + 1 * szDOUBLE + 2 * szINT
  + 16 * szINT + 3 * szLONG + 1 * szINT + dcl.ad.mem.length * szCHAR

/-- p7_dcl_MPIPack into a buffer of length n from position 0: succeeds with
the packed items and the final position iff they fit. -/
def p7_dcl_MPIPack (dcl : P7_DOMAIN) (n : Nat) : Option (List WireItem × Nat) :=
  let items := p7_dcl_MPIPack_items dcl
  if wireSize items ≤ n then some (items, wireSize items) else none

/-- p7_dcl_MPIUnpack (mpisupport.c:570-646): sequential MPI_Unpack of every
field in pack order, a fresh pool of memsize bytes copied from the wire,
then each reference rehydrated as `(off == -1) ? NULL : mem + off`. -/
def p7_dcl_MPIUnpack (b : List WireItem) : Option (P7_DOMAIN × List WireItem) :=
  match readInt b with
  | none => none
  | some (ienv, b) =>
  match readInt b with
  | none => none
  | some (jenv, b) =>
  match readInt b with
  | none => none
  | some (iali, b) =>
  match readInt b with
  | none => none
  | some (jali, b) =>
  match readFloat b with
  | none => none
  | some (envsc, b) =>
  match readFloat b with
  | none => none
  | some (domcorrection, b) =>
  match readFloat b with
  | none => none
  | some (dombias, b) =>
  match readFloat b with
  | none => none
  | some (oasc, b) =>
  match readFloat b with
  | none => none
  | some (bitscore, b) =>
  match readDouble b with
  | none => none
  | some (lnP, b) =>
  match readInt b with
  | none => none
  | some (is_reported, b) =>
  match readInt b with
  | none => none
  | some (is_included, b) =>
  match readInt b with
  | none => none
  | some (rfline, b) =>
  match readInt b with
  | none => none
  | some (mmline, b) =>
  match readInt b with
  | none => none
  | some (csline, b) =>
  match readInt b with
  | none => none
  | some (model, b) =>
  match readInt b with
  | none => none
  | some (mline, b) =>
  match readInt b with
  | none => none
  | some (aseq, b) =>
  match readInt b with
  | none => none
  | some (ppline, b) =>
  match readInt b with
  | none => none
  | some (n1, b) =>
  match readInt b with
  | none => none
  | some (hmmname, b) =>
  match readInt b with
  | none => none
  | some (hmmacc, b) =>
  match readInt b with
  | none => none
  | some (hmmdesc, b) =>
  match readInt b with
  | none => none
  | some (hmmfrom, b) =>
  match readInt b with
  | none => none
  | some (hmmto, b) =>
  match readInt b with
  | none => none
  | some (m1, b) =>
  match readInt b with
  | none => none
  | some (sqname, b) =>
  match readInt b with
  | none => none
  | some (sqacc, b) =>
  match readInt b with
  | none => none
  | some (sqdesc, b) =>
  match readLong b with
  | none => none
  | some (sqfrom, b) =>
  match readLong b with
  | none => none
  | some (sqto, b) =>
  match readLong b with
  | none => none
  | some (l1, b) =>
  match readInt b with
  | none => none
  | some (memsize, b) =>
    if memsize < 0 then none
    else
      match readChars memsize.toNat b with
      | none => none
      | some (mem, b) =>
        some ({ ienv := ienv, jenv := jenv, iali := iali, jali := jali,
                envsc := envsc, domcorrection := domcorrection,
                dombias := dombias, oasc := oasc, bitscore := bitscore,
                lnP := lnP, is_reported := is_reported,
                is_included := is_included,
                ad := { rfline := decodeOff rfline, mmline := decodeOff mmline,
                        csline := decodeOff csline, model := decodeOff model,
                        mline := decodeOff mline, aseq := decodeOff aseq,
                        ppline := decodeOff ppline, N := n1,
                        hmmname := decodeOff hmmname,
                        hmmacc := decodeOff hmmacc,
                        hmmdesc := decodeOff hmmdesc,
                        hmmfrom := hmmfrom, hmmto := hmmto, M := m1,
                        sqname := decodeOff sqname, sqacc := decodeOff sqacc,
                        sqdesc := decodeOff sqdesc,
                        sqfrom := sqfrom, sqto := sqto, L := l1,
                        mem := mem } }, b)

/-! ### Basic lemmas about the codecs -/

theorem wireSize_append (a b : List WireItem) :
    wireSize (a ++ b) = wireSize a + wireSize b := by
  simp [wireSize]

theorem wireSize_map_wChar (l : List Int) :
    wireSize (l.map .wChar) = l.length := by
  induction l with
  | nil => rfl
  | cons c cs ih =>
    simp only [wireSize, itemSize, szCHAR, List.map_cons, List.sum_cons,
      List.length_cons] at ih ⊢
    omega

theorem wireSize_packOpt (o : Option (List Int)) :
    wireSize (esl_mpi_PackOpt_items o) = esl_mpi_PackOptSize o := by
  cases o with
  | none => rfl
  | some s =>
    have := wireSize_map_wChar s
    simp [esl_mpi_PackOpt_items, esl_mpi_PackOptSize, wireSize, itemSize,
      szINT, szCHAR] at this ⊢
    omega

theorem readChars_map (l : List Int) (rest : List WireItem) :
    readChars l.length (l.map .wChar ++ rest) = some (l, rest) := by
  induction l with
  | nil => rfl
  | cons c cs ih => simp [readChars, ih]

theorem decodeOff_optOffset (o : Option Nat) : decodeOff (optOffset o) = o := by
  cases o with
  | none => rfl
  | some k =>
    have h : ¬ ((k : Int) = -1) := by omega
    simp [optOffset, decodeOff, h]

theorem unpackOpt_packOpt (o : Option (List Int)) (rest : List WireItem) :
    esl_mpi_UnpackOpt (esl_mpi_PackOpt_items o ++ rest) = some (o, rest) := by
  cases o with
  | none => rfl
  | some s =>
    have h : ¬ ((s.length : Int) < 0) := by omega
    simp [esl_mpi_PackOpt_items, esl_mpi_UnpackOpt, readInt, h, readChars_map]

/-- Round trip of the hit codec: unpacking the packed items returns the hit
and leaves trailing items untouched. -/
theorem hit_unpack_pack (hit : P7_HIT) (rest : List WireItem) :
    p7_hit_MPIUnpack (p7_hit_MPIPack_items hit ++ rest) = some (hit, rest) := by
  simp [p7_hit_MPIPack_items, p7_hit_MPIUnpack, readDouble, readFloat, readInt,
    unpackOpt_packOpt]

/-- Round trip of the domain codec: unpacking the packed items returns the
domain (display included) and leaves trailing items untouched. -/
theorem dcl_unpack_pack (dcl : P7_DOMAIN) (rest : List WireItem) :
    p7_dcl_MPIUnpack (p7_dcl_MPIPack_items dcl ++ rest) = some (dcl, rest) := by
  have h : ¬ ((dcl.ad.mem.length : Int) < 0) := by omega
  simp [p7_dcl_MPIPack_items, p7_dcl_MPIUnpack, readInt, readFloat, readDouble,
    readLong, h, readChars_map, decodeOff_optOffset]

/-! ### Wire buffer and channel -/

/-- The caller-owned reusable wire buffer: `*buf` (NULL-ness) and `*nalloc`.
Contents carry no guarantees across operations, so only the allocation state
is tracked. -/
structure BufState where
  isNull : Bool
  nalloc : Nat
deriving DecidableEq, Repr

/-- The buffer (re)allocation step used at every site:
`if (*buf == NULL || n > *nalloc) { ESL_RALLOC(..., n); *nalloc = n; }`. -/
def bufEnsure (st : BufState) (n : Nat) : BufState :=
  if st.isNull || decide (n > st.nalloc) then ⟨false, n⟩ else st

/-- The calling convention for the reusable buffer: a NULL buffer has
recorded capacity 0 (callers initialize `char *buf = NULL; int nalloc = 0`). -/
def bufInv (st : BufState) : Prop := st.isNull = true → st.nalloc = 0

/-- One message handed to MPI_Send: the posted tag, the meaningful packed
prefix, and the byte count passed to MPI_Send (what MPI_Get_count reports to
the receiver after a probe).  Bytes of the sent length beyond the packed
prefix are unspecified buffer contents. -/
structure Packet where
  tag : Int
  payload : List WireItem
  sentLen : Nat
deriving DecidableEq, Repr

/-- A message as seen on the receiving side: the sender rank resolved by the
probe (mpistatus.MPI_SOURCE), plus the packet data. -/
structure Msg where
  src : Int
  tag : Int
  payload : List WireItem
  sentLen : Nat
deriving DecidableEq, Repr

/-- Delivery of sent packets to a receiver: MPI stamps each message with the
sender rank. -/
def deliver (src : Int) (ps : List Packet) : List Msg :=
  ps.map fun p => ⟨src, p.tag, p.payload, p.sentLen⟩

/-- Reinterpretation of a wire int64 as the uint64 it bit-copies into
(p7_tophits_MPIRecv unpacks the hit count into a uint64_t). -/
def u64 (v : Int) : Nat := (v % (2 : Int) ^ 64).toNat

/-! ### Send path -/

/-- p7_dcl_MPISend (mpisupport.c:449-467): packs the domain into the shared
buffer bounded by `n = *nalloc` and sends the whole buffer (`MPI_Send(*buf,
n, ...)`); the buffer is not reallocated here. -/
def p7_dcl_MPISend (dcl : P7_DOMAIN) (tag : Int) (st : BufState) :
    Except Int Packet :=
  match p7_dcl_MPIPack dcl st.nalloc with
  | none => .error eslESYS
  | some (items, _) => .ok ⟨tag, items, st.nalloc⟩

/-- Loop of p7_hit_MPISend over the domains of one hit, in order. -/
def sendDcls (tag : Int) (st : BufState) : List P7_DOMAIN → Except Int (List Packet)
  | [] => .ok []
  | d :: ds =>
    match p7_dcl_MPISend d tag st with
    | .error e => .error e
    | .ok p =>
      match sendDcls tag st ds with
      | .error e => .error e
      | .ok ps => .ok (p :: ps)

/-- p7_hit_MPISend (mpisupport.c:217-241): packs the hit into the shared
buffer bounded by `n = *nalloc`, sends the whole buffer, then sends each of
the domains of the hit as an independent message. -/
def p7_hit_MPISend (hit : P7_HIT) (ds : List P7_DOMAIN) (tag : Int)
    (st : BufState) : Except Int (List Packet) :=
  match p7_hit_MPIPack hit st.nalloc with
  | none => .error eslESYS
  | some (items, _) =>
    match sendDcls tag st ds with
    | .error e => .error e
    | .ok ps => .ok (⟨tag, items, st.nalloc⟩ :: ps)

/-- All domains of a collection, in the send-scan order (hits in insertion
order, each hit's domains in order). -/
def allDomains (th : P7_TOPHITS) : List P7_DOMAIN :=
  (th.unsrt.map Prod.snd).flatten

/-- One step of the sizing scan of p7_tophits_MPISend (mpisupport.c:84-87):
`if (sz <= memsize) { sz = memsize; dcl = ...; }`, so ties pick the later
domain. -/
def dclScanStep (acc : Nat × Option P7_DOMAIN) (d : P7_DOMAIN) :
    Nat × Option P7_DOMAIN :=
  if acc.1 ≤ d.ad.mem.length then (d.ad.mem.length, some d) else acc

/-- The sizing scan of p7_tophits_MPISend (mpisupport.c:80-90): walks every
domain keeping the one whose display pool is largest so far. -/
def dclMaxScan (ds : List P7_DOMAIN) : Nat × Option P7_DOMAIN :=
  ds.foldl dclScanStep (0, none)

/-- Packed size of the three-int64 envelope message
(`MPI_Pack_size(3, MPI_LONG_LONG_INT, ...)`). -/
def envelopePackSize : Nat := 3 * szLLONG

/-- The buffer size computed by p7_tophits_MPISend (mpisupport.c:92-101)
before the single growth: the pack size of the FIRST hit when the collection
is nonempty, maximised with the pack size of the scanned largest-pool domain
when one exists, maximised with the envelope size. -/
def tophitsSendSize (th : P7_TOPHITS) : Nat :=
  let n :=
    match th.unsrt with
    | [] => 0
    | (h, _) :: _ =>
      match (dclMaxScan (allDomains th)).2 with
      | some d => max (p7_hit_MPIPackSize h) (p7_dcl_MPIPackSize d)
      | none => p7_hit_MPIPackSize h
  max n envelopePackSize

/-- Loop of p7_tophits_MPISend over the hits, in insertion order. -/
def sendHits (tag : Int) (st : BufState) :
    List (P7_HIT × List P7_DOMAIN) → Except Int (List Packet)
  | [] => .ok []
  | (h, ds) :: t =>
    match p7_hit_MPISend h ds tag st with
    | .error e => .error e
    | .ok ps =>
      match sendHits tag st t with
      | .error e => .error e
      | .ok qs => .ok (ps ++ qs)

/-- p7_tophits_MPISend (mpisupport.c:67-130): computes the buffer size,
grows the shared buffer once, sends the envelope `{N, nreported, nincluded}`
with byte length `n`, returns after the envelope when the collection is
empty, and otherwise streams each hit (each followed by its domains). -/
def p7_tophits_MPISend (th : P7_TOPHITS) (tag : Int) (st : BufState) :
    Except Int (List Packet × BufState) :=
  let n := tophitsSendSize th
  let st2 := bufEnsure st n
  let env : Packet :=
    ⟨tag, [.wLL (th.unsrt.length : Int), .wLL th.nreported, .wLL th.nincluded], n⟩
  if th.unsrt.length = 0 then .ok ([env], st2)
  else
    match sendHits tag st2 th.unsrt with
    | .error e => .error e
    | .ok ps => .ok (env :: ps, st2)

/-! ### Receive path -/

/-- p7_dcl_MPIRecv (mpisupport.c:650-693): probe, validate tag and source
against the expectation unless it is a wildcard (a mismatch is eslFAIL),
grow the buffer to the probed length, receive, and unpack one domain. -/
def p7_dcl_MPIRecv (source tag : Int) (st : BufState) :
    List Msg → Except Int (P7_DOMAIN × BufState × List Msg)
  | [] => .error eslESYS
  | m :: rest =>
    if tag ≠ MPI_ANY_TAG ∧ m.tag ≠ tag then .error eslFAIL
    else if source ≠ MPI_ANY_SOURCE ∧ m.src ≠ source then .error eslFAIL
    else
      let st2 := bufEnsure st m.sentLen
      match p7_dcl_MPIUnpack m.payload with
      | none => .error eslESYS
      | some (dcl, _) => .ok (dcl, st2, rest)

/-- Loop of p7_hit_MPIRecv over the `hit->ndom` expected domain messages. -/
def recvDcls (source tag : Int) :
    Nat → BufState → List Msg → Except Int (List P7_DOMAIN × BufState × List Msg)
  | 0, st, msgs => .ok ([], st, msgs)
  | k + 1, st, msgs =>
    match p7_dcl_MPIRecv source tag st msgs with
    | .error e => .error e
    | .ok (d, st2, msgs2) =>
      match recvDcls source tag k st2 msgs2 with
      | .error e => .error e
      | .ok (ds, st3, msgs3) => .ok (d :: ds, st3, msgs3)

/-- p7_hit_MPIRecv (mpisupport.c:245-298): probe, validate tag and source
(mismatch is eslFAIL), grow the buffer to the probed length, receive and
unpack the hit, then receive its `ndom` domain messages. -/
def p7_hit_MPIRecv (source tag : Int) (st : BufState) :
    List Msg → Except Int ((P7_HIT × List P7_DOMAIN) × BufState × List Msg)
  | [] => .error eslESYS
  | m :: rest =>
    if tag ≠ MPI_ANY_TAG ∧ m.tag ≠ tag then .error eslFAIL
    else if source ≠ MPI_ANY_SOURCE ∧ m.src ≠ source then .error eslFAIL
    else
      let st2 := bufEnsure st m.sentLen
      match p7_hit_MPIUnpack m.payload with
      | none => .error eslESYS
      | some (hit, _) =>
        match recvDcls source tag hit.ndom.toNat st2 rest with
        | .error e => .error e
        | .ok (ds, st3, msgs3) => .ok ((hit, ds), st3, msgs3)

/-- Loop of p7_tophits_MPIRecv over the `nhits` expected hit messages. -/
def recvHits (source tag : Int) :
    Nat → BufState → List Msg →
    Except Int (List (P7_HIT × List P7_DOMAIN) × BufState × List Msg)
  | 0, st, msgs => .ok ([], st, msgs)
  | k + 1, st, msgs =>
    match p7_hit_MPIRecv source tag st msgs with
    | .error e => .error e
    | .ok (hd, st2, msgs2) =>
      match recvHits source tag k st2 msgs2 with
      | .error e => .error e
      | .ok (hds, st3, msgs3) => .ok (hd :: hds, st3, msgs3)

/-- Core of p7_tophits_MPIRecv (mpisupport.c:150-212): probe the envelope,
validate tag and source (mismatch is eslFAIL), pin the resolved source and
tag (`tag = mpistatus.MPI_TAG; source = mpistatus.MPI_SOURCE`), grow the
buffer, receive and unpack the envelope, then receive each hit with the
pinned source and tag. -/
def p7_tophits_MPIRecvE (source tag : Int) (st : BufState) :
    List Msg → Except Int (P7_TOPHITS × BufState × List Msg)
  | [] => .error eslESYS
  | m :: rest =>
    if tag ≠ MPI_ANY_TAG ∧ m.tag ≠ tag then .error eslFAIL
    else if source ≠ MPI_ANY_SOURCE ∧ m.src ≠ source then .error eslFAIL
    else
      let st2 := bufEnsure st m.sentLen
      match readLL m.payload with
      | none => .error eslESYS
      | some (nhits, b) =>
        match readLL b with
        | none => .error eslESYS
        | some (nreported, b2) =>
          match readLL b2 with
          | none => .error eslESYS
          | some (nincluded, _) =>
            match recvHits m.src m.tag (u64 nhits) st2 rest with
            | .error e => .error e
            | .ok (hds, st3, msgs3) =>
              .ok (⟨hds, nreported, nincluded⟩, st3, msgs3)

/-- p7_tophits_MPIRecv with its out-parameter discipline: on success the
status is eslOK and `*ret_th` is the reconstructed collection; on any
failure the partially built collection is destroyed, `*ret_th` is NULL and
the failure status is returned (the ERROR label, mpisupport.c:208-211). -/
def p7_tophits_MPIRecv (source tag : Int) (st : BufState) (msgs : List Msg) :
    Int × Option P7_TOPHITS :=
  match p7_tophits_MPIRecvE source tag st msgs with
  | .ok (th, _, _) => (eslOK, some th)
  | .error e => (e, none)

/-! ### Buffer lemmas -/

theorem bufEnsure_ge (st : BufState) (n : Nat) : n ≤ (bufEnsure st n).nalloc := by
  unfold bufEnsure
  split
  · rfl
  · next hc =>
    simp only [Bool.or_eq_true, decide_eq_true_eq, not_or, not_lt] at hc
    exact hc.2

theorem bufEnsure_isNull (st : BufState) (n : Nat) :
    (bufEnsure st n).isNull = false := by
  unfold bufEnsure
  split
  · rfl
  · next hc =>
    simp only [Bool.or_eq_true, decide_eq_true_eq, not_or, not_lt] at hc
    simp [hc.1]

theorem bufInv_bufEnsure (st : BufState) (n : Nat) : bufInv (bufEnsure st n) := by
  intro h
  rw [bufEnsure_isNull] at h
  cases h

theorem bufEnsure_mono (st : BufState) (n : Nat) (hinv : bufInv st) :
    st.nalloc ≤ (bufEnsure st n).nalloc := by
  unfold bufEnsure
  split
  · next hc =>
    simp only [Bool.or_eq_true, decide_eq_true_eq] at hc
    rcases hc with hnull | hlt
    · simp [hinv hnull]
    · exact Nat.le_of_lt hlt
  · exact Nat.le_refl _

theorem bufEnsure_noop (st : BufState) (n : Nat) (hnull : st.isNull = false)
    (hle : n ≤ st.nalloc) : bufEnsure st n = st := by
  unfold bufEnsure
  rw [if_neg]
  simp [hnull, Nat.not_lt.mpr hle]

/-! ### Sizing-scan lemmas -/

theorem dclScan_foldl_le (ds : List P7_DOMAIN) (acc : Nat × Option P7_DOMAIN) :
    acc.1 ≤ (ds.foldl dclScanStep acc).1 := by
  induction ds generalizing acc with
  | nil => exact Nat.le_refl _
  | cons a t ih =>
    refine Nat.le_trans ?_ (ih (dclScanStep acc a))
    unfold dclScanStep
    split
    · next hle => exact hle
    · exact Nat.le_refl _

theorem dclScan_foldl_bound (ds : List P7_DOMAIN) (acc : Nat × Option P7_DOMAIN)
    (d : P7_DOMAIN) (hd : d ∈ ds) :
    d.ad.mem.length ≤ (ds.foldl dclScanStep acc).1 := by
  induction ds generalizing acc with
  | nil => cases hd
  | cons a t ih =>
    rcases List.mem_cons.mp hd with rfl | hmem
    · refine Nat.le_trans ?_ (dclScan_foldl_le t (dclScanStep acc d))
      unfold dclScanStep
      split
      · exact Nat.le_refl _
      · next hlt => exact Nat.le_of_not_le hlt
    · exact ih (dclScanStep acc a) hmem

theorem dclScan_foldl_witness (ds : List P7_DOMAIN)
    (acc : Nat × Option P7_DOMAIN)
    (hacc : ∀ d0, acc.2 = some d0 → d0.ad.mem.length = acc.1) :
    ∀ d1, (ds.foldl dclScanStep acc).2 = some d1 →
      d1.ad.mem.length = (ds.foldl dclScanStep acc).1 := by
  induction ds generalizing acc with
  | nil => exact hacc
  | cons a t ih =>
    refine ih (dclScanStep acc a) ?_
    intro d0 h0
    unfold dclScanStep at h0 ⊢
    split at h0
    · next hle =>
      simp only [Option.some.injEq] at h0
      subst h0
      rw [if_pos hle]
    · next hc =>
      rw [if_neg hc]
      exact hacc d0 h0

theorem dclScan_foldl_isSome (ds : List P7_DOMAIN)
    (acc : Nat × Option P7_DOMAIN) (hacc : acc.2.isSome) :
    (ds.foldl dclScanStep acc).2.isSome := by
  induction ds generalizing acc with
  | nil => exact hacc
  | cons a t ih =>
    refine ih (dclScanStep acc a) ?_
    unfold dclScanStep
    split
    · rfl
    · exact hacc

theorem dclMaxScan_isSome (ds : List P7_DOMAIN) (hne : ds ≠ []) :
    (dclMaxScan ds).2.isSome := by
  cases ds with
  | nil => cases hne rfl
  | cons a t =>
    unfold dclMaxScan
    rw [List.foldl_cons]
    refine dclScan_foldl_isSome t _ ?_
    unfold dclScanStep
    rw [if_pos (Nat.zero_le _)]
    rfl

theorem dclMaxScan_bound (ds : List P7_DOMAIN) (d : P7_DOMAIN) (hd : d ∈ ds) :
    d.ad.mem.length ≤ (dclMaxScan ds).1 :=
  dclScan_foldl_bound ds (0, none) d hd

theorem dclMaxScan_witness (ds : List P7_DOMAIN) (d1 : P7_DOMAIN)
    (h : (dclMaxScan ds).2 = some d1) :
    d1.ad.mem.length = (dclMaxScan ds).1 :=
  dclScan_foldl_witness ds (0, none) (by intro d0 h0; cases h0) d1 h

/-! ### Bounds on the computed send-buffer size -/

theorem tophitsSendSize_env (th : P7_TOPHITS) :
    envelopePackSize ≤ tophitsSendSize th := by
  unfold tophitsSendSize
  exact Nat.le_max_right _ _

theorem tophitsSendSize_firstHit (th : P7_TOPHITS) (h : P7_HIT)
    (ds : List P7_DOMAIN) (t : List (P7_HIT × List P7_DOMAIN))
    (hu : th.unsrt = (h, ds) :: t) :
    p7_hit_MPIPackSize h ≤ tophitsSendSize th := by
  unfold tophitsSendSize
  rw [hu]
  refine Nat.le_trans ?_ (Nat.le_max_left _ _)
  cases hscan : (dclMaxScan (allDomains th)).2 with
  | none => exact Nat.le_refl _
  | some d => exact Nat.le_max_left _ _

theorem tophitsSendSize_domain (th : P7_TOPHITS) (d : P7_DOMAIN)
    (hd : d ∈ allDomains th) :
    p7_dcl_MPIPackSize d ≤ tophitsSendSize th := by
  have hne : allDomains th ≠ [] := List.ne_nil_of_mem hd
  have hsome := dclMaxScan_isSome (allDomains th) hne
  obtain ⟨dmax, hdmax⟩ := Option.isSome_iff_exists.mp hsome
  have hwit := dclMaxScan_witness (allDomains th) dmax hdmax
  have hbd := dclMaxScan_bound (allDomains th) d hd
  have husrt : th.unsrt ≠ [] := by
    intro hnil
    apply hne
    unfold allDomains
    rw [hnil]
    rfl
  unfold tophitsSendSize
  cases hu : th.unsrt with
  | nil => exact absurd hu husrt
  | cons p t =>
    obtain ⟨h0, ds0⟩ := p
    rw [hdmax]
    refine Nat.le_trans ?_ (Nat.le_max_left _ _)
    refine Nat.le_trans ?_ (Nat.le_max_right (p7_hit_MPIPackSize h0) _)
    unfold p7_dcl_MPIPackSize
    have : d.ad.mem.length ≤ dmax.ad.mem.length := by omega
    simp only [szINT, szFLOAT, szDOUBLE, szLONG, szCHAR]
    omega

/-! ### Capacity monotonicity of the transfer operations -/

theorem dclRecv_mono {source tag : Int} {st : BufState} {msgs : List Msg}
    {out : P7_DOMAIN × BufState × List Msg} (hinv : bufInv st)
    (h : p7_dcl_MPIRecv source tag st msgs = .ok out) :
    st.nalloc ≤ out.2.1.nalloc ∧ bufInv out.2.1 := by
  cases msgs with
  | nil => simp [p7_dcl_MPIRecv] at h
  | cons m ms =>
    simp only [p7_dcl_MPIRecv] at h
    split at h
    · cases h
    · split at h
      · cases h
      · split at h
        · cases h
        · simp only [Except.ok.injEq] at h
          subst h
          exact ⟨bufEnsure_mono st m.sentLen hinv, bufInv_bufEnsure _ _⟩

theorem recvDcls_mono (k : Nat) {source tag : Int} {st : BufState}
    {msgs : List Msg} {out : List P7_DOMAIN × BufState × List Msg}
    (hinv : bufInv st) (h : recvDcls source tag k st msgs = .ok out) :
    st.nalloc ≤ out.2.1.nalloc ∧ bufInv out.2.1 := by
  induction k generalizing st msgs out with
  | zero =>
    simp only [recvDcls, Except.ok.injEq] at h
    subst h
    exact ⟨Nat.le_refl _, hinv⟩
  | succ k ih =>
    simp only [recvDcls] at h
    split at h
    · cases h
    · next d st2 msgs2 heq =>
      split at h
      · cases h
      · next ds st3 msgs3 heq2 =>
        simp only [Except.ok.injEq] at h
        subst h
        have h1 := dclRecv_mono hinv heq
        have h2 := ih h1.2 heq2
        exact ⟨Nat.le_trans h1.1 h2.1, h2.2⟩

theorem hitRecv_mono {source tag : Int} {st : BufState} {msgs : List Msg}
    {out : (P7_HIT × List P7_DOMAIN) × BufState × List Msg} (hinv : bufInv st)
    (h : p7_hit_MPIRecv source tag st msgs = .ok out) :
    st.nalloc ≤ out.2.1.nalloc ∧ bufInv out.2.1 := by
  cases msgs with
  | nil => simp [p7_hit_MPIRecv] at h
  | cons m ms =>
    simp only [p7_hit_MPIRecv] at h
    split at h
    · cases h
    · split at h
      · cases h
      · split at h
        · cases h
        · next hit b heq =>
          split at h
          · cases h
          · next ds st3 msgs3 heq2 =>
            simp only [Except.ok.injEq] at h
            subst h
            have h1 : st.nalloc ≤ (bufEnsure st m.sentLen).nalloc :=
              bufEnsure_mono st m.sentLen hinv
            have h2 := recvDcls_mono hit.ndom.toNat (bufInv_bufEnsure _ _) heq2
            exact ⟨Nat.le_trans h1 h2.1, h2.2⟩

theorem recvHits_mono (k : Nat) {source tag : Int} {st : BufState}
    {msgs : List Msg}
    {out : List (P7_HIT × List P7_DOMAIN) × BufState × List Msg}
    (hinv : bufInv st) (h : recvHits source tag k st msgs = .ok out) :
    st.nalloc ≤ out.2.1.nalloc ∧ bufInv out.2.1 := by
  induction k generalizing st msgs out with
  | zero =>
    simp only [recvHits, Except.ok.injEq] at h
    subst h
    exact ⟨Nat.le_refl _, hinv⟩
  | succ k ih =>
    simp only [recvHits] at h
    split at h
    · cases h
    · next hd st2 msgs2 heq =>
      split at h
      · cases h
      · next hds st3 msgs3 heq2 =>
        simp only [Except.ok.injEq] at h
        subst h
        have h1 := hitRecv_mono hinv heq
        have h2 := ih h1.2 heq2
        exact ⟨Nat.le_trans h1.1 h2.1, h2.2⟩

theorem recvE_mono {source tag : Int} {st : BufState} {msgs : List Msg}
    {out : P7_TOPHITS × BufState × List Msg} (hinv : bufInv st)
    (h : p7_tophits_MPIRecvE source tag st msgs = .ok out) :
    st.nalloc ≤ out.2.1.nalloc := by
  cases msgs with
  | nil => simp [p7_tophits_MPIRecvE] at h
  | cons m ms =>
    simp only [p7_tophits_MPIRecvE] at h
    split at h
    · cases h
    · split at h
      · cases h
      · split at h
        · cases h
        · split at h
          · cases h
          · split at h
            · cases h
            · split at h
              · cases h
              · next hds st3 msgs3 heq2 =>
                simp only [Except.ok.injEq] at h
                subst h
                have h1 : st.nalloc ≤ (bufEnsure st m.sentLen).nalloc :=
                  bufEnsure_mono st m.sentLen hinv
                have h2 := recvHits_mono _ (bufInv_bufEnsure _ _) heq2
                exact Nat.le_trans h1 h2.1

theorem tophitsSend_state {th : P7_TOPHITS} {tag : Int} {st : BufState}
    {ps : List Packet} {st2 : BufState}
    (h : p7_tophits_MPISend th tag st = .ok (ps, st2)) :
    st2 = bufEnsure st (tophitsSendSize th) := by
  simp only [p7_tophits_MPISend] at h
  split at h
  · simp only [Except.ok.injEq, Prod.mk.injEq] at h
    exact h.2.symm
  · split at h
    · cases h
    · simp only [Except.ok.injEq, Prod.mk.injEq] at h
      exact h.2.symm

/-! ### Failure statuses are never eslOK -/

theorem dclRecv_error_cases {source tag : Int} {st : BufState} {msgs : List Msg}
    {e : Int} (h : p7_dcl_MPIRecv source tag st msgs = .error e) :
    e = eslFAIL ∨ e = eslESYS := by
  cases msgs with
  | nil =>
    simp only [p7_dcl_MPIRecv, Except.error.injEq] at h
    exact Or.inr h.symm
  | cons m ms =>
    simp only [p7_dcl_MPIRecv] at h
    split at h
    · simp only [Except.error.injEq] at h
      exact Or.inl h.symm
    · split at h
      · simp only [Except.error.injEq] at h
        exact Or.inl h.symm
      · split at h
        · simp only [Except.error.injEq] at h
          exact Or.inr h.symm
        · cases h

theorem recvDcls_error_cases (k : Nat) {source tag : Int} {st : BufState}
    {msgs : List Msg} {e : Int}
    (h : recvDcls source tag k st msgs = .error e) :
    e = eslFAIL ∨ e = eslESYS := by
  induction k generalizing st msgs with
  | zero => simp [recvDcls] at h
  | succ k ih =>
    simp only [recvDcls] at h
    split at h
    · next e2 heq =>
      simp only [Except.error.injEq] at h
      subst h
      exact dclRecv_error_cases heq
    · split at h
      · next e2 heq2 =>
        simp only [Except.error.injEq] at h
        subst h
        exact ih heq2
      · cases h

theorem hitRecv_error_cases {source tag : Int} {st : BufState} {msgs : List Msg}
    {e : Int} (h : p7_hit_MPIRecv source tag st msgs = .error e) :
    e = eslFAIL ∨ e = eslESYS := by
  cases msgs with
  | nil =>
    simp only [p7_hit_MPIRecv, Except.error.injEq] at h
    exact Or.inr h.symm
  | cons m ms =>
    simp only [p7_hit_MPIRecv] at h
    split at h
    · simp only [Except.error.injEq] at h
      exact Or.inl h.symm
    · split at h
      · simp only [Except.error.injEq] at h
        exact Or.inl h.symm
      · split at h
        · simp only [Except.error.injEq] at h
          exact Or.inr h.symm
        · split at h
          · next e2 heq2 =>
            simp only [Except.error.injEq] at h
            subst h
            exact recvDcls_error_cases _ heq2
          · cases h

theorem recvHits_error_cases (k : Nat) {source tag : Int} {st : BufState}
    {msgs : List Msg} {e : Int}
    (h : recvHits source tag k st msgs = .error e) :
    e = eslFAIL ∨ e = eslESYS := by
  induction k generalizing st msgs with
  | zero => simp [recvHits] at h
  | succ k ih =>
    simp only [recvHits] at h
    split at h
    · next e2 heq =>
      simp only [Except.error.injEq] at h
      subst h
      exact hitRecv_error_cases heq
    · split at h
      · next e2 heq2 =>
        simp only [Except.error.injEq] at h
        subst h
        exact ih heq2
      · cases h

theorem recvE_error_cases {source tag : Int} {st : BufState} {msgs : List Msg}
    {e : Int} (h : p7_tophits_MPIRecvE source tag st msgs = .error e) :
    e = eslFAIL ∨ e = eslESYS := by
  cases msgs with
  | nil =>
    simp only [p7_tophits_MPIRecvE, Except.error.injEq] at h
    exact Or.inr h.symm
  | cons m ms =>
    simp only [p7_tophits_MPIRecvE] at h
    split at h
    · simp only [Except.error.injEq] at h
      exact Or.inl h.symm
    · split at h
      · simp only [Except.error.injEq] at h
        exact Or.inl h.symm
      · split at h
        · simp only [Except.error.injEq] at h
          exact Or.inr h.symm
        · split at h
          · simp only [Except.error.injEq] at h
            exact Or.inr h.symm
          · split at h
            · simp only [Except.error.injEq] at h
              exact Or.inr h.symm
            · split at h
              · next e2 heq2 =>
                simp only [Except.error.injEq] at h
                subst h
                exact recvHits_error_cases _ heq2
              · cases h

/-! ### Sent-length lemmas -/

theorem dclSend_shape {dcl : P7_DOMAIN} {tag : Int} {st : BufState} {p : Packet}
    (h : p7_dcl_MPISend dcl tag st = .ok p) :
    p = ⟨tag, p7_dcl_MPIPack_items dcl, st.nalloc⟩ := by
  simp only [p7_dcl_MPISend, p7_dcl_MPIPack] at h
  split at h
  · cases h
  · next items n2 heq =>
    split at heq
    · simp only [Option.some.injEq, Prod.mk.injEq] at heq
      simp only [Except.ok.injEq] at h
      rw [← h, ← heq.1]
    · cases heq

theorem sendDcls_sentLen {tag : Int} {st : BufState} {ds : List P7_DOMAIN}
    {ps : List Packet} (h : sendDcls tag st ds = .ok ps) :
    ∀ q ∈ ps, q.sentLen = st.nalloc := by
  induction ds generalizing ps with
  | nil =>
    simp only [sendDcls, Except.ok.injEq] at h
    subst h
    intro q hq
    cases hq
  | cons d t ih =>
    simp only [sendDcls] at h
    split at h
    · cases h
    · next p heq =>
      split at h
      · cases h
      · next ps2 heq2 =>
        simp only [Except.ok.injEq] at h
        subst h
        intro q hq
        rcases List.mem_cons.mp hq with rfl | hmem
        · rw [dclSend_shape heq]
        · exact ih heq2 q hmem

theorem hitSend_sentLen {hit : P7_HIT} {ds : List P7_DOMAIN} {tag : Int}
    {st : BufState} {ps : List Packet}
    (h : p7_hit_MPISend hit ds tag st = .ok ps) :
    ∀ q ∈ ps, q.sentLen = st.nalloc := by
  simp only [p7_hit_MPISend] at h
  split at h
  · cases h
  · next items n2 heq =>
    split at h
    · cases h
    · next ps2 heq2 =>
      simp only [Except.ok.injEq] at h
      subst h
      intro q hq
      rcases List.mem_cons.mp hq with rfl | hmem
      · rfl
      · exact sendDcls_sentLen heq2 q hmem

/-! ### Exact packed byte counts -/

/-- The domain pack writes four more bytes (one MPI_INT) than
p7_dcl_MPIPackSize accounts for: the pack emits 17 display ints
(7 line offsets, N, 3 hmm offsets, hmmfrom/hmmto/M, 3 sq offsets) while the
size computation counts 16. -/
theorem wireSize_dcl_items (dcl : P7_DOMAIN) :
    wireSize (p7_dcl_MPIPack_items dcl) = p7_dcl_MPIPackSize dcl + szINT := by
  have hmem := wireSize_map_wChar dcl.ad.mem
  simp only [p7_dcl_MPIPack_items, p7_dcl_MPIPackSize, wireSize, itemSize,
    szINT, szLONG, szFLOAT, szDOUBLE, szCHAR, List.map_append, List.map_cons,
    List.map_nil, List.sum_append, List.sum_cons, List.sum_nil] at hmem ⊢
  omega

/-- The hit pack writes exactly the bytes p7_hit_MPIPackSize accounts for. -/
theorem wireSize_hit_items (hit : P7_HIT) :
    wireSize (p7_hit_MPIPack_items hit) = p7_hit_MPIPackSize hit := by
  have hn := wireSize_packOpt hit.name
  have ha := wireSize_packOpt hit.acc
  have hd := wireSize_packOpt hit.desc
  simp only [p7_hit_MPIPack_items, p7_hit_MPIPackSize, wireSize, itemSize,
    szINT, szFLOAT, szDOUBLE, List.map_append, List.map_cons, List.map_nil,
    List.sum_append, List.sum_cons, List.sum_nil] at hn ha hd ⊢
  omega

/-! ### Concrete example records used as witnesses -/

/-- Example display: mixed present and absent references into a 6-byte pool
holding three NUL-terminated fragments. -/
def adEx : P7_ALIDISPLAY :=
  { rfline := none, mmline := some 0, csline := none, model := some 2,
    mline := none, aseq := some 4, ppline := none, N := 2,
    hmmname := some 0, hmmacc := none, hmmdesc := none,
    hmmfrom := 1, hmmto := 2, M := 5,
    sqname := some 2, sqacc := none, sqdesc := none,
    sqfrom := 1, sqto := 2, L := 9,
    mem := [65, 0, 66, 0, 67, 0] }

/-- Example domain wrapping `adEx`. -/
def dclEx : P7_DOMAIN :=
  { ienv := 1, jenv := 2, iali := 3, jali := 4, envsc := 10, domcorrection := 11,
    dombias := 12, oasc := 13, bitscore := 14, lnP := 15, is_reported := 1,
    is_included := 0, ad := adEx }

/-- Example display with an empty pool and all references absent. -/
def adEmpty : P7_ALIDISPLAY :=
  { rfline := none, mmline := none, csline := none, model := none,
    mline := none, aseq := none, ppline := none, N := 0,
    hmmname := none, hmmacc := none, hmmdesc := none,
    hmmfrom := 0, hmmto := 0, M := 0,
    sqname := none, sqacc := none, sqdesc := none,
    sqfrom := 0, sqto := 0, L := 0,
    mem := [] }

/-- Example domain with a zero-length pool. -/
def dclEmpty : P7_DOMAIN :=
  { ienv := 0, jenv := 0, iali := 0, jali := 0, envsc := 0, domcorrection := 0,
    dombias := 0, oasc := 0, bitscore := 0, lnP := 0, is_reported := 0,
    is_included := 0, ad := adEmpty }

/-- Example hit: no domains, a present name, absent accession, present empty
description. -/
def hitEx : P7_HIT :=
  { sortkey := 7, score := 1, pre_score := 2, sum_score := 3, lnP := 4,
    pre_lnP := 5, sum_lnP := 6, nexpected := 8, nregions := 1, nclustered := 2,
    noverlaps := 3, nenvelopes := 4, ndom := 0, flags := 0, nreported := 1,
    nincluded := 1, best_domain := 0, name := some [72, 105, 0], acc := none,
    desc := some [] }

/-- Example hit with every optional string absent and no domains. -/
def hitPlain : P7_HIT :=
  { sortkey := 0, score := 0, pre_score := 0, sum_score := 0, lnP := 0,
    pre_lnP := 0, sum_lnP := 0, nexpected := 0, nregions := 0, nclustered := 0,
    noverlaps := 0, nenvelopes := 0, ndom := 0, flags := 0, nreported := 0,
    nincluded := 0, best_domain := 0, name := none, acc := none, desc := none }

/-- Example hit like `hitPlain` but with a 20-byte name, so its packed size
is 120 bytes instead of 96. -/
def hitNamed : P7_HIT :=
  { hitPlain with name := some (List.replicate 20 65) }

/-- Collection whose SECOND hit needs a larger buffer than the first: the
sizing pass of p7_tophits_MPISend only measures the first hit. -/
def thTwo : P7_TOPHITS :=
  { unsrt := [(hitPlain, []), (hitNamed, [])], nreported := 0, nincluded := 0 }

/-- Collection with one hit owning one domain. -/
def thOne : P7_TOPHITS :=
  { unsrt := [({ hitPlain with ndom := 1 }, [dclEx])],
    nreported := 1, nincluded := 1 }

/-- Empty collection with nonzero counters. -/
def thEmpty : P7_TOPHITS := { unsrt := [], nreported := 3, nincluded := 2 }

/-! ### Claims -/

/-- C1: round trip of both record codecs.  Whenever p7_hit_MPIPack succeeds,
p7_hit_MPIUnpack on the packed bytes returns a hit equal field-for-field to
the original, optional strings included; whenever p7_dcl_MPIPack succeeds,
p7_dcl_MPIUnpack returns an equal domain whose alignment display has every
line and metadata string with exactly the original content, absent exactly
when the original was absent.  This holds for zero-length pools and every
presence combination since hits, domains and displays are quantified over
all values. -/
theorem claim_C1 :
    (∀ (hit : P7_HIT) (n : Nat) (items : List WireItem) (sz : Nat)
        (rest : List WireItem),
      p7_hit_MPIPack hit n = some (items, sz) →
      p7_hit_MPIUnpack (items ++ rest) = some (hit, rest)) ∧
    (∀ (dcl : P7_DOMAIN) (n : Nat) (items : List WireItem) (sz : Nat)
        (rest : List WireItem),
      p7_dcl_MPIPack dcl n = some (items, sz) →
      p7_dcl_MPIUnpack (items ++ rest) = some (dcl, rest)) := by
  constructor
  · intro hit n items sz rest hp
    simp only [p7_hit_MPIPack] at hp
    split at hp
    · simp only [Option.some.injEq, Prod.mk.injEq] at hp
      rw [← hp.1]
      exact hit_unpack_pack hit rest
    · cases hp
  · intro dcl n items sz rest hp
    simp only [p7_dcl_MPIPack] at hp
    split at hp
    · simp only [Option.some.injEq, Prod.mk.injEq] at hp
      rw [← hp.1]
      exact dcl_unpack_pack dcl rest
    · cases hp

/-- Witness for C1 at a concrete hit and a concrete domain. -/
theorem claim_C1_witness :
    p7_hit_MPIUnpack (p7_hit_MPIPack_items hitEx ++ []) = some (hitEx, []) ∧
    p7_dcl_MPIUnpack (p7_dcl_MPIPack_items dclEx ++ []) = some (dclEx, []) :=
  ⟨claim_C1.1 hitEx 200 (p7_hit_MPIPack_items hitEx)
      (wireSize (p7_hit_MPIPack_items hitEx)) [] (by decide),
   claim_C1.2 dclEx 200 (p7_dcl_MPIPack_items dclEx)
      (wireSize (p7_dcl_MPIPack_items dclEx)) [] (by decide)⟩

/-- C2 (code bug): the hit pack writes exactly its PackSize bytes, but the
domain pack writes p7_dcl_MPIPackSize plus 4 bytes for EVERY domain - the
size computation counts 16 display MPI_INTs where the pack emits 17 - so
packing a domain into a buffer of exactly p7_dcl_MPIPackSize bytes always
fails instead of never overflowing. -/
theorem claim_C2_bug : ∀ (dcl : P7_DOMAIN) (hit : P7_HIT),
    wireSize (p7_dcl_MPIPack_items dcl) = p7_dcl_MPIPackSize dcl + 4 ∧
    p7_dcl_MPIPack dcl (p7_dcl_MPIPackSize dcl) = none ∧
    wireSize (p7_hit_MPIPack_items hit) = p7_hit_MPIPackSize hit := by
  intro dcl hit
  have hsz := wireSize_dcl_items dcl
  simp only [szINT] at hsz
  refine ⟨hsz, ?_, wireSize_hit_items hit⟩
  simp only [p7_dcl_MPIPack]
  rw [if_neg (by omega)]

/-- C3 counterexample: for the two-hit collection `thTwo` (first hit with no
optional strings, second hit with a 20-byte name, no domains) the capacity
established by the sizing pass of p7_tophits_MPISend from a fresh buffer is
96 bytes, but the second hit packs to 120 bytes, so NOT every hit of the
collection fits in the established capacity. -/
theorem claim_C3_counterexample :
    ¬ ∀ p ∈ thTwo.unsrt,
        p7_hit_MPIPackSize p.1 ≤
          (bufEnsure ⟨true, 0⟩ (tophitsSendSize thTwo)).nalloc := by
  decide

/-- C3 amended: the single buffer growth of p7_tophits_MPISend establishes a
capacity that is at least the envelope size, at least the computed pack size
of the FIRST hit, and at least the computed pack size of every domain of the
collection (the scan finds a domain of maximal pool size); hits after the
first are not measured and may exceed the capacity. -/
theorem claim_C3 : ∀ (th : P7_TOPHITS) (st : BufState),
    (∀ (tag : Int) (ps : List Packet) (st2 : BufState),
      p7_tophits_MPISend th tag st = .ok (ps, st2) →
      st2 = bufEnsure st (tophitsSendSize th)) ∧
    envelopePackSize ≤ (bufEnsure st (tophitsSendSize th)).nalloc ∧
    (∀ (h : P7_HIT) (ds : List P7_DOMAIN) (t : List (P7_HIT × List P7_DOMAIN)),
      th.unsrt = (h, ds) :: t →
      p7_hit_MPIPackSize h ≤ (bufEnsure st (tophitsSendSize th)).nalloc) ∧
    (∀ p ∈ th.unsrt, ∀ d ∈ p.2,
      p7_dcl_MPIPackSize d ≤ (bufEnsure st (tophitsSendSize th)).nalloc) := by
  intro th st
  have hcap := bufEnsure_ge st (tophitsSendSize th)
  refine ⟨fun tag ps st2 h => tophitsSend_state h,
    Nat.le_trans (tophitsSendSize_env th) hcap, ?_, ?_⟩
  · intro h ds t hu
    exact Nat.le_trans (tophitsSendSize_firstHit th h ds t hu) hcap
  · intro p hp d hd
    have hmem : d ∈ allDomains th := by
      unfold allDomains
      exact List.mem_flatten.mpr ⟨p.2, List.mem_map_of_mem Prod.snd hp, hd⟩
    exact Nat.le_trans (tophitsSendSize_domain th d hmem) hcap

/-- Witness for the amended C3 at concrete collections. -/
theorem claim_C3_witness :
    p7_hit_MPIPackSize hitPlain ≤
      (bufEnsure ⟨true, 0⟩ (tophitsSendSize thTwo)).nalloc ∧
    p7_dcl_MPIPackSize dclEx ≤
      (bufEnsure ⟨true, 0⟩ (tophitsSendSize thOne)).nalloc :=
  ⟨(claim_C3 thTwo ⟨true, 0⟩).2.2.1 hitPlain [] [(hitNamed, [])] rfl,
   (claim_C3 thOne ⟨true, 0⟩).2.2.2 ({ hitPlain with ndom := 1 }, [dclEx])
     (by decide) dclEx (by decide)⟩

/-- C4: decoding a wire-encoded well-formed display yields absent for every
reference packed with the sentinel -1 (the references equal the originals,
which are none exactly when the wire offset was -1), and for every present
reference a view at exactly pool start plus the stored offset whose bytes
equal the original bytes, with the offset inside the freshly copied pool -
no out-of-range pool access. -/
theorem claim_C4 : ∀ (dcl : P7_DOMAIN) (rest : List WireItem), adWF dcl.ad →
    ∃ dcl2,
      p7_dcl_MPIUnpack (p7_dcl_MPIPack_items dcl ++ rest) = some (dcl2, rest) ∧
      adRefs dcl2.ad = adRefs dcl.ad ∧
      dcl2.ad.mem = dcl.ad.mem ∧
      ∀ r ∈ adRefs dcl2.ad, ∀ k, r = some k →
        k < dcl2.ad.mem.length ∧ dcl2.ad.mem.drop k = dcl.ad.mem.drop k := by
  intro dcl rest hwf
  refine ⟨dcl, dcl_unpack_pack dcl rest, rfl, rfl, ?_⟩
  intro r hr k hk
  have hir := hwf r hr
  rw [hk] at hir
  exact ⟨hir, rfl⟩

/-- Witness for C4 at a concrete display mixing present and absent lines. -/
theorem claim_C4_witness :
    ∃ dcl2,
      p7_dcl_MPIUnpack (p7_dcl_MPIPack_items dclEx ++ []) = some (dcl2, []) ∧
      adRefs dcl2.ad = adRefs dclEx.ad ∧
      dcl2.ad.mem = dclEx.ad.mem ∧
      ∀ r ∈ adRefs dcl2.ad, ∀ k, r = some k →
        k < dcl2.ad.mem.length ∧ dcl2.ad.mem.drop k = dclEx.ad.mem.drop k :=
  claim_C4 dclEx [] (by decide)

/-- C5: once the expected tag and source are pinned (non-wildcard), a probed
message differing in tag or in source makes each receive operation fail with
eslFAIL, a status distinct from the channel-failure (eslESYS), the
allocation-failure (eslEMEM) and the success (eslOK) statuses; the message
is never silently accepted. -/
theorem claim_C5 : ∀ (src tag : Int) (m : Msg) (ms : List Msg) (st : BufState),
    (tag ≠ MPI_ANY_TAG ∧ m.tag ≠ tag) ∨ (src ≠ MPI_ANY_SOURCE ∧ m.src ≠ src) →
    p7_dcl_MPIRecv src tag st (m :: ms) = .error eslFAIL ∧
    p7_hit_MPIRecv src tag st (m :: ms) = .error eslFAIL ∧
    p7_tophits_MPIRecv src tag st (m :: ms) = (eslFAIL, none) ∧
    eslFAIL ≠ eslOK ∧ eslFAIL ≠ eslESYS ∧ eslFAIL ≠ eslEMEM := by
  intro src tag m ms st hmis
  have hd : p7_dcl_MPIRecv src tag st (m :: ms) = .error eslFAIL := by
    simp only [p7_dcl_MPIRecv]
    rcases hmis with ht | hs
    · rw [if_pos ht]
    · by_cases hc : tag ≠ MPI_ANY_TAG ∧ m.tag ≠ tag
      · rw [if_pos hc]
      · rw [if_neg hc, if_pos hs]
  have hh : p7_hit_MPIRecv src tag st (m :: ms) = .error eslFAIL := by
    simp only [p7_hit_MPIRecv]
    rcases hmis with ht | hs
    · rw [if_pos ht]
    · by_cases hc : tag ≠ MPI_ANY_TAG ∧ m.tag ≠ tag
      · rw [if_pos hc]
      · rw [if_neg hc, if_pos hs]
  have he : p7_tophits_MPIRecvE src tag st (m :: ms) = .error eslFAIL := by
    simp only [p7_tophits_MPIRecvE]
    rcases hmis with ht | hs
    · rw [if_pos ht]
    · by_cases hc : tag ≠ MPI_ANY_TAG ∧ m.tag ≠ tag
      · rw [if_pos hc]
      · rw [if_neg hc, if_pos hs]
  refine ⟨hd, hh, ?_, by decide, by decide, by decide⟩
  simp [p7_tophits_MPIRecv, he]

/-- Witness for C5: a pinned receive expecting tag 0 from rank 0 rejects a
probed message from rank 1 carrying tag 5. -/
theorem claim_C5_witness :
    p7_dcl_MPIRecv 0 0 ⟨false, 0⟩ [⟨1, 5, [], 0⟩] = .error eslFAIL ∧
    p7_hit_MPIRecv 0 0 ⟨false, 0⟩ [⟨1, 5, [], 0⟩] = .error eslFAIL ∧
    p7_tophits_MPIRecv 0 0 ⟨false, 0⟩ [⟨1, 5, [], 0⟩] = (eslFAIL, none) ∧
    eslFAIL ≠ eslOK ∧ eslFAIL ≠ eslESYS ∧ eslFAIL ≠ eslEMEM :=
  claim_C5 0 0 ⟨1, 5, [], 0⟩ [] ⟨false, 0⟩ (Or.inl ⟨by decide, by decide⟩)

/-- C6: p7_tophits_MPIRecv hands back a collection exactly when it succeeds;
on every failure of the receive path (probe mismatch, channel failure on any
envelope, hit or domain message, or unpack failure) it returns a non-eslOK
status and the result pointer is NULL, never a partially built collection. -/
theorem claim_C6 : ∀ (src tag : Int) (st : BufState) (msgs : List Msg),
    (p7_tophits_MPIRecv src tag st msgs).1 ≠ eslOK ↔
    (p7_tophits_MPIRecv src tag st msgs).2 = none := by
  intro src tag st msgs
  unfold p7_tophits_MPIRecv
  cases h : p7_tophits_MPIRecvE src tag st msgs with
  | ok x => simp
  | error e =>
    simp only []
    constructor
    · intro _
      trivial
    · intro _
      rcases recvE_error_cases h with rfl | rfl <;> decide

/-- C7: for a collection with zero hits, p7_tophits_MPISend succeeds and
transmits exactly one message - the envelope with count, reportedCount and
includedCount packed as three int64 in that order - and sends no hit or
domain message; the matching p7_tophits_MPIRecv consumes only that envelope
(the rest of the stream is untouched) and returns an empty collection whose
counters equal the sent values. -/
theorem claim_C7 : ∀ (th : P7_TOPHITS) (tag src : Int) (stS stR : BufState)
    (rest : List Msg), th.unsrt = [] →
    p7_tophits_MPISend th tag stS =
      .ok ([⟨tag, [.wLL 0, .wLL th.nreported, .wLL th.nincluded],
              envelopePackSize⟩],
           bufEnsure stS envelopePackSize) ∧
    p7_tophits_MPIRecvE src tag stR
        (⟨src, tag, [.wLL 0, .wLL th.nreported, .wLL th.nincluded],
            envelopePackSize⟩ :: rest) =
      .ok ({ unsrt := [], nreported := th.nreported, nincluded := th.nincluded },
           bufEnsure stR envelopePackSize, rest) := by
  intro th tag src stS stR rest hu
  have hsize : tophitsSendSize th = envelopePackSize := by
    unfold tophitsSendSize
    rw [hu]
    simp
  constructor
  · simp only [p7_tophits_MPISend, hsize, hu, List.length_nil, Int.Nat.cast_ofNat_Int,
      if_pos]
  · simp only [p7_tophits_MPIRecvE, readLL, u64, recvHits]
    norm_num

/-- Witness for C7 at the concrete empty collection `thEmpty`. -/
theorem claim_C7_witness :
    p7_tophits_MPISend thEmpty 0 ⟨true, 0⟩ =
      .ok ([⟨0, [.wLL 0, .wLL thEmpty.nreported, .wLL thEmpty.nincluded],
              envelopePackSize⟩],
           bufEnsure ⟨true, 0⟩ envelopePackSize) ∧
    p7_tophits_MPIRecvE 1 0 ⟨false, 50⟩
        (⟨1, 0, [.wLL 0, .wLL thEmpty.nreported, .wLL thEmpty.nincluded],
            envelopePackSize⟩ :: []) =
      .ok ({ unsrt := [], nreported := thEmpty.nreported,
             nincluded := thEmpty.nincluded },
           bufEnsure ⟨false, 50⟩ envelopePackSize, []) :=
  claim_C7 thEmpty 0 1 ⟨true, 0⟩ ⟨false, 50⟩ [] rfl

/-- C8: the recorded buffer capacity never decreases across the send and
receive operations of a transfer (under the calling convention that a NULL
buffer has capacity 0), the single growth step reallocates only when the
request exceeds the current capacity or the buffer is NULL, and a request
for a smaller or equal capacity on an allocated buffer leaves the buffer
state entirely unchanged. -/
theorem claim_C8 :
    (∀ (st : BufState) (n : Nat), st.isNull = false → n ≤ st.nalloc →
      bufEnsure st n = st) ∧
    (∀ (st : BufState) (n : Nat), bufInv st →
      st.nalloc ≤ (bufEnsure st n).nalloc) ∧
    (∀ (src tag : Int) (st : BufState) (msgs : List Msg)
        (out : P7_DOMAIN × BufState × List Msg), bufInv st →
      p7_dcl_MPIRecv src tag st msgs = .ok out → st.nalloc ≤ out.2.1.nalloc) ∧
    (∀ (src tag : Int) (st : BufState) (msgs : List Msg)
        (out : (P7_HIT × List P7_DOMAIN) × BufState × List Msg), bufInv st →
      p7_hit_MPIRecv src tag st msgs = .ok out → st.nalloc ≤ out.2.1.nalloc) ∧
    (∀ (src tag : Int) (st : BufState) (msgs : List Msg)
        (out : P7_TOPHITS × BufState × List Msg), bufInv st →
      p7_tophits_MPIRecvE src tag st msgs = .ok out →
      st.nalloc ≤ out.2.1.nalloc) ∧
    (∀ (th : P7_TOPHITS) (tag : Int) (st : BufState) (ps : List Packet)
        (st2 : BufState), bufInv st →
      p7_tophits_MPISend th tag st = .ok (ps, st2) → st.nalloc ≤ st2.nalloc) := by
  refine ⟨bufEnsure_noop, bufEnsure_mono, ?_, ?_, ?_, ?_⟩
  · intro src tag st msgs out hinv h
    exact (dclRecv_mono hinv h).1
  · intro src tag st msgs out hinv h
    exact (hitRecv_mono hinv h).1
  · intro src tag st msgs out hinv h
    exact recvE_mono hinv h
  · intro th tag st ps st2 hinv h
    rw [tophitsSend_state h]
    exact bufEnsure_mono st _ hinv

/-- Witness for C8: a no-op request on an allocated buffer, a growth from a
smaller buffer, and a concrete successful whole-collection receive. -/
theorem claim_C8_witness :
    bufEnsure ⟨false, 10⟩ 4 = ⟨false, 10⟩ ∧
    (10 : Nat) ≤ (bufEnsure ⟨false, 10⟩ 20).nalloc ∧
    (0 : Nat) ≤ (((⟨[], 3, 2⟩ : P7_TOPHITS), (⟨false, 24⟩ : BufState),
        ([] : List Msg)).2.1.nalloc) :=
  ⟨claim_C8.1 ⟨false, 10⟩ 4 rfl (by decide),
   claim_C8.2.1 ⟨false, 10⟩ 20 (fun h => nomatch h),
   claim_C8.2.2.2.2.1 1 0 ⟨true, 0⟩ [⟨1, 0, [.wLL 0, .wLL 3, .wLL 2], 24⟩]
     ((⟨[], 3, 2⟩ : P7_TOPHITS), (⟨false, 24⟩ : BufState), ([] : List Msg))
     (fun _ => rfl) (by rfl)⟩

/-- C9: a display whose pool size is zero is legal input - encoding succeeds
whenever the buffer is large enough, decoding succeeds and produces an owned
zero-length pool, and every one of the thirteen line/metadata references of
the decoded display is absent. -/
theorem claim_C9 : ∀ (dcl : P7_DOMAIN) (n : Nat) (rest : List WireItem),
    dcl.ad.mem = [] → adWF dcl.ad →
    wireSize (p7_dcl_MPIPack_items dcl) ≤ n →
    p7_dcl_MPIPack dcl n =
      some (p7_dcl_MPIPack_items dcl, wireSize (p7_dcl_MPIPack_items dcl)) ∧
    ∃ dcl2,
      p7_dcl_MPIUnpack (p7_dcl_MPIPack_items dcl ++ rest) = some (dcl2, rest) ∧
      dcl2.ad.mem = [] ∧ adRefs dcl2.ad = List.replicate 13 none := by
  intro dcl n rest hmem hwf hn
  have hpack : p7_dcl_MPIPack dcl n =
      some (p7_dcl_MPIPack_items dcl, wireSize (p7_dcl_MPIPack_items dcl)) := by
    simp only [p7_dcl_MPIPack]
    rw [if_pos hn]
  have hall : ∀ r ∈ adRefs dcl.ad, r = none := by
    intro r hr
    have hir := hwf r hr
    rw [hmem] at hir
    cases r with
    | none => rfl
    | some k => simp [offInRange] at hir
  refine ⟨hpack, dcl, dcl_unpack_pack dcl rest, hmem, ?_⟩
  exact List.eq_replicate_iff.mpr ⟨rfl, hall⟩

/-- Witness for C9 at the concrete zero-pool domain `dclEmpty`. -/
theorem claim_C9_witness :
    p7_dcl_MPIPack dclEmpty 148 =
      some (p7_dcl_MPIPack_items dclEmpty,
            wireSize (p7_dcl_MPIPack_items dclEmpty)) ∧
    ∃ dcl2,
      p7_dcl_MPIUnpack (p7_dcl_MPIPack_items dclEmpty ++ []) = some (dcl2, []) ∧
      dcl2.ad.mem = [] ∧ adRefs dcl2.ad = List.replicate 13 none :=
  claim_C9 dclEmpty 148 [] rfl (by decide) (by decide)

/-- C10: every hit and every domain message is sent with byte length equal to
the whole current buffer capacity `*nalloc`, not the packed byte count of
the record; when the packed record is smaller than the capacity, the length
the receiver learns by probing strictly exceeds the packed size, the excess
being unspecified buffer bytes. -/
theorem claim_C10 :
    (∀ (dcl : P7_DOMAIN) (tag : Int) (st : BufState) (p : Packet),
      p7_dcl_MPISend dcl tag st = .ok p →
      p.sentLen = st.nalloc ∧ p.payload = p7_dcl_MPIPack_items dcl ∧
      (wireSize p.payload < st.nalloc → wireSize p.payload < p.sentLen)) ∧
    (∀ (hit : P7_HIT) (ds : List P7_DOMAIN) (tag : Int) (st : BufState)
        (ps : List Packet),
      p7_hit_MPISend hit ds tag st = .ok ps →
      ∀ q ∈ ps, q.sentLen = st.nalloc) := by
  constructor
  · intro dcl tag st p h
    have hshape := dclSend_shape h
    subst hshape
    exact ⟨rfl, rfl, fun hlt => hlt⟩
  · intro hit ds tag st ps h
    exact hitSend_sentLen h

/-- Witness for C10 at a concrete domain and hit sent through a 200-byte
buffer. -/
theorem claim_C10_witness :
    ((⟨0, p7_dcl_MPIPack_items dclEx, (200 : Nat)⟩ : Packet).sentLen =
        (⟨false, 200⟩ : BufState).nalloc ∧
      (⟨0, p7_dcl_MPIPack_items dclEx, (200 : Nat)⟩ : Packet).payload =
        p7_dcl_MPIPack_items dclEx ∧
      (wireSize (⟨0, p7_dcl_MPIPack_items dclEx, (200 : Nat)⟩ : Packet).payload <
          (⟨false, 200⟩ : BufState).nalloc →
        wireSize (⟨0, p7_dcl_MPIPack_items dclEx, (200 : Nat)⟩ : Packet).payload <
          (⟨0, p7_dcl_MPIPack_items dclEx, (200 : Nat)⟩ : Packet).sentLen)) ∧
    ∀ q ∈ [(⟨0, p7_hit_MPIPack_items hitEx, (200 : Nat)⟩ : Packet)],
      q.sentLen = (⟨false, 200⟩ : BufState).nalloc :=
  ⟨claim_C10.1 dclEx 0 ⟨false, 200⟩ ⟨0, p7_dcl_MPIPack_items dclEx, 200⟩
      (by rfl),
   claim_C10.2 hitEx [] 0 ⟨false, 200⟩
      [⟨0, p7_hit_MPIPack_items hitEx, 200⟩] (by rfl)⟩
